import Mathlib

/-!
Verification development for the bear-lake partitioned-table engine.

The definitions below are a shallow embedding of the engine's core
(`src/bear_lake/database.py`, `src/bear_lake/metadata.py`,
`src/bear_lake/table.py`) plus the legacy type-tag decoder of
`src/bear_lake/__init__.py`.  Files and rows are modelled at the logical
level: a data file records its partition path segments and the logical
rows it holds (the external columnar codec is a collaborator that we
model as storing and returning logical rows verbatim, which matches the
observable behaviour of a partitioned write followed by a hive scan).
Python exceptions are modelled by `Except DBError`; every mutating
operation returns the error outcome together with the resulting state,
so that a state mutated before a raise is represented faithfully.
-/

namespace BearLake

/-- Logical cell values appearing in rows. -/
inductive Value where
  | int (i : Int)
  | str (s : String)
  | bool (b : Bool)
  | date (y : Int) (m d : Nat)
  | datetime (y : Int) (mo d h mi s : Nat)
  | null
deriving DecidableEq, Repr

/-- Polars data types used in table schemas, as a closed enumeration
with one parameterized (nested) constructor. -/
inductive PolarsType where
  | int8 | int16 | int32 | int64
  | uint8 | uint16 | uint32 | uint64
  | float32 | float64
  | boolean | string | binary
  | date | datetime | time | duration | categorical
  | list (elem : PolarsType)
deriving DecidableEq, Repr

/-- Python `str(...)` applied to a polars dtype class (and to simple
instances): `str(pl.Int8) = "Int8"`, `str(pl.List(pl.Int64)) = "List(Int64)"`. -/
def PolarsType.pyStr : PolarsType → String
  | .int8 => "Int8"
  | .int16 => "Int16"
  | .int32 => "Int32"
  | .int64 => "Int64"
  | .uint8 => "UInt8"
  | .uint16 => "UInt16"
  | .uint32 => "UInt32"
  | .uint64 => "UInt64"
  | .float32 => "Float32"
  | .float64 => "Float64"
  | .boolean => "Boolean"
  | .string => "String"
  | .binary => "Binary"
  | .date => "Date"
  | .datetime => "Datetime"
  | .time => "Time"
  | .duration => "Duration"
  | .categorical => "Categorical"
  | .list e => "List(" ++ e.pyStr ++ ")"

/-- Python `str(...)` applied to a concrete DataFrame column dtype.  For a
datetime column polars prints the instantiated parameters (the real output is
`Datetime(time_unit='us', time_zone=None)`; the quote characters are elided
here, which preserves every substring relation the code relies on). -/
def PolarsType.dtypeStr : PolarsType → String
  | .datetime => "Datetime(time_unit=us, time_zone=None)"
  | .duration => "Duration(time_unit=us)"
  | .list e => "List(" ++ e.dtypeStr ++ ")"
  | t => t.pyStr

/-- Does `hay` start with `pat`? (helper for the substring test). -/
def listStarts : List Char → List Char → Bool
  | _, [] => true
  | [], _ :: _ => false
  | h :: hs, p :: ps => h == p && listStarts hs ps

/-- Does `hay` contain `pat` as a contiguous sublist?  Models the Python
expression `pat in hay` on strings. -/
def hasSub : List Char → List Char → Bool
  | [], pat => pat.isEmpty
  | h :: hs, pat => listStarts (h :: hs) pat || hasSub hs pat

/-- Python `pat in hay` for strings. -/
def strContains (hay pat : String) : Bool :=
  hasSub hay.data pat.data

/-- Python `key.replace("_year", "")`: drops every (non-overlapping,
left-to-right) occurrence of `"_year"`. -/
def replaceYearChars : List Char → List Char
  | '_' :: 'y' :: 'e' :: 'a' :: 'r' :: rest => replaceYearChars rest
  | c :: cs => c :: replaceYearChars cs
  | [] => []

/-- Python `key.replace("_year", "")` on strings. -/
def stripYear (k : String) : String :=
  ⟨replaceYearChars k.data⟩

/-- `MetadataManager._polars_type_to_string`: eight explicit cases, then
`str(dtype)` as the fallback. -/
def polars_type_to_string (dtype : PolarsType) : String :=
  match dtype with
  | .string => "String"
  | .int64 => "Int64"
  | .int32 => "Int32"
  | .float64 => "Float64"
  | .float32 => "Float32"
  | .date => "Date"
  | .datetime => "Datetime"
  | .boolean => "Boolean"
  | other => other.pyStr

/-- `MetadataManager._string_to_polars_type`: an eight-entry map whose
`.get` default silently substitutes `pl.String` for every other tag. -/
def string_to_polars_type (type_str : String) : PolarsType :=
  if type_str = "String" then .string
  else if type_str = "Int64" then .int64
  else if type_str = "Int32" then .int32
  else if type_str = "Float64" then .float64
  else if type_str = "Float32" then .float32
  else if type_str = "Date" then .date
  else if type_str = "Datetime" then .datetime
  else if type_str = "Boolean" then .boolean
  else .string

/-- Outcome of the legacy decoder `Database._deserialize_dtype` in
`src/bear_lake/__init__.py`: either a mapped type, or the branch that hands
the raw string to Python `eval` (modelled symbolically — the decisive fact is
*which* branch runs, not what `eval` would return). -/
inductive DecodeResult where
  | typ (t : PolarsType)
  | evalFallback (src : String)
deriving DecidableEq, Repr

/-- `Database._deserialize_dtype` from `src/bear_lake/__init__.py`:
a nineteen-entry map, with `eval(dtype_str, {"pl": pl})` as the fallback for
every unrecognized string. -/
def deserialize_dtype (dtype_str : String) : DecodeResult :=
  if dtype_str = "Int8" then .typ .int8
  else if dtype_str = "Int16" then .typ .int16
  else if dtype_str = "Int32" then .typ .int32
  else if dtype_str = "Int64" then .typ .int64
  else if dtype_str = "UInt8" then .typ .uint8
  else if dtype_str = "UInt16" then .typ .uint16
  else if dtype_str = "UInt32" then .typ .uint32
  else if dtype_str = "UInt64" then .typ .uint64
  else if dtype_str = "Float32" then .typ .float32
  else if dtype_str = "Float64" then .typ .float64
  else if dtype_str = "Boolean" then .typ .boolean
  else if dtype_str = "Utf8" then .typ .string
  else if dtype_str = "String" then .typ .string
  else if dtype_str = "Binary" then .typ .binary
  else if dtype_str = "Date" then .typ .date
  else if dtype_str = "Datetime" then .typ .datetime
  else if dtype_str = "Time" then .typ .time
  else if dtype_str = "Duration" then .typ .duration
  else if dtype_str = "Categorical" then .typ .categorical
  else .evalFallback dtype_str

/-- Encode a type tag and decode it again through the metadata store. -/
def roundTrip (t : PolarsType) : PolarsType :=
  string_to_polars_type (polars_type_to_string t)

/-- A logical row: an association list from column names to values, in
column order. -/
abbrev Row := List (String × Value)

/-- First-match association-list lookup (Python dict access / column lookup). -/
def alookup {α : Type} : List (String × α) → String → Option α
  | [], _ => none
  | (k, v) :: rest, key => if k = key then some v else alookup rest key

/-- A polars DataFrame: named, typed columns plus its rows. -/
structure DataFrame where
  cols : List (String × PolarsType)
  rows : List Row
deriving DecidableEq, Repr

/-- The parsed content of a table's `metadata.json`. Timestamps are modelled
by a logical clock. -/
structure TableMeta where
  schema : List (String × String)
  partitionKeys : List String
  createdAt : Nat
  lastModified : Nat
deriving DecidableEq, Repr

/-- A physical data file: the `key=value` path segments it sits under and the
logical rows it stores (a hive scan of the file yields exactly these rows). -/
structure DataFile where
  partitionVals : List (String × Option Value)
  rows : List Row
deriving DecidableEq, Repr

/-- A table's directory under the database root: the optional
`metadata.json` sidecar and the data files in the tree. -/
structure TableDir where
  metadataJson : Option TableMeta
  files : List DataFile
deriving DecidableEq, Repr

/-- Replace the entry for `t` (or append a fresh one): a directory write. -/
def setEntry : List (String × TableDir) → String → TableDir → List (String × TableDir)
  | [], t, d => [(t, d)]
  | (k, v) :: rest, t, d =>
    if k = t then (t, d) :: rest else (k, v) :: setEntry rest t d

/-- Look a directory entry up by name. -/
def getEntry : List (String × TableDir) → String → Option TableDir
  | [], _ => none
  | (k, v) :: rest, t => if k = t then some v else getEntry rest t

/-- Remove every entry named `t`: `shutil.rmtree` of a table directory. -/
def eraseEntry : List (String × TableDir) → String → List (String × TableDir)
  | [], _ => []
  | (k, v) :: rest, t =>
    if k = t then eraseEntry rest t else (k, v) :: eraseEntry rest t

/-- The database root directory plus a logical clock for timestamps. -/
structure DB where
  tables : List (String × TableDir)
  clock : Nat
deriving DecidableEq, Repr

def DB.getDir (db : DB) (t : String) : Option TableDir :=
  getEntry db.tables t

def DB.setDir (db : DB) (t : String) (d : TableDir) : DB :=
  { db with tables := setEntry db.tables t d }

def DB.eraseDir (db : DB) (t : String) : DB :=
  { db with tables := eraseEntry db.tables t }

/-- The empty database directory. -/
def emptyDB : DB := ⟨[], 0⟩

instance {ε α : Type} [DecidableEq ε] [DecidableEq α] : DecidableEq (Except ε α)
  | .error a, .error b =>
    if h : a = b then .isTrue (by rw [h]) else .isFalse (fun hc => h (Except.error.inj hc))
  | .error _, .ok _ => .isFalse (fun hc => Except.noConfusion hc)
  | .ok _, .error _ => .isFalse (fun hc => Except.noConfusion hc)
  | .ok a, .ok b =>
    if h : a = b then .isTrue (by rw [h]) else .isFalse (fun hc => h (Except.ok.inj hc))

/-- Errors raised by the engine (Python `ValueError` / `AttributeError`
instances, keyed by their message). -/
inductive DBError where
  | tableNotFound (t : String)
  | tableAlreadyExists (t : String)
  | schemaMismatch (t : String)
  | missingColumn (c : String)
  | typeMismatch (c : String)
  | columnNotFound (c : String)
  | scanFailure (t : String)
  | attributeErrorNoneGet
deriving DecidableEq, Repr

/-- `MetadataManager.table_exists`: does
`<root>/<table>/metadata.json` exist? -/
def table_exists (db : DB) (t : String) : Bool :=
  match db.getDir t with
  | some dir => dir.metadataJson.isSome
  | none => false

/-- `MetadataManager.list_tables`: the sub-directories of the root that
contain a `metadata.json`. -/
def list_tables (db : DB) : List String :=
  (db.tables.filter (fun p => p.2.metadataJson.isSome)).map Prod.fst

/-- `MetadataManager.get_table_metadata`: `None` when the sidecar is absent. -/
def get_table_metadata (db : DB) (t : String) : Option TableMeta :=
  (db.getDir t).bind TableDir.metadataJson

/-- `MetadataManager.get_schema`: decode every stored tag. -/
def get_schema (db : DB) (t : String) : Except DBError (List (String × PolarsType)) :=
  match get_table_metadata db t with
  | none => .error (.tableNotFound t)
  | some m => .ok (m.schema.map (fun p => (p.1, string_to_polars_type p.2)))

/-- `get_schema` as an `Option`, for concise statements. -/
def schemaOf (db : DB) (t : String) : Option (List (String × PolarsType)) :=
  (get_schema db t).toOption

/-- `MetadataManager.create_table_metadata`: encode the schema and write
`metadata.json`, creating the directory with `exist_ok=True` (existing data
files survive). -/
def create_table_metadata (db : DB) (t : String)
    (schema : List (String × PolarsType)) (pkNames : List String) : DB :=
  let encoded := schema.map (fun p => (p.1, polars_type_to_string p.2))
  let meta : TableMeta := ⟨encoded, pkNames, db.clock, db.clock⟩
  let dir : TableDir :=
    match db.getDir t with
    | some d => { d with metadataJson := some meta }
    | none => ⟨some meta, []⟩
  ({ db with clock := db.clock + 1 }).setDir t dir

/-- `MetadataManager.update_last_modified`: silently does nothing when
`metadata.json` is absent. -/
def update_last_modified (db : DB) (t : String) : DB :=
  match get_table_metadata db t with
  | none => db
  | some m =>
    let dir := (db.getDir t).getD ⟨none, []⟩
    ({ db with clock := db.clock + 1 }).setDir t
      { dir with metadataJson := some { m with lastModified := db.clock } }

/-- `MetadataManager.validate_schema`, inner loop over the stored schema:
the Python check passes a column when the expected tag occurs as a substring
of the actual dtype string, or when the decoded type's string equals it. -/
def typeCompatible (expectedTag : String) (actual : PolarsType) : Bool :=
  strContains actual.dtypeStr expectedTag ||
    (string_to_polars_type expectedTag).pyStr == actual.dtypeStr

/-- The per-column validation loop of `MetadataManager.validate_schema`. -/
def validateCols : List (String × String) → List (String × PolarsType) → Except DBError Unit
  | [], _ => .ok ()
  | (c, tag) :: rest, dfCols =>
    match alookup dfCols c with
    | none => .error (.missingColumn c)
    | some actual =>
      if typeCompatible tag actual then validateCols rest dfCols
      else .error (.typeMismatch c)

/-- `MetadataManager.validate_schema`. -/
def validate_schema (db : DB) (t : String) (df : DataFrame) : Except DBError Unit :=
  match get_table_metadata db t with
  | none => .error (.tableNotFound t)
  | some m => validateCols m.schema df.cols

/-- A partition-key spec passed to create: a plain column name, or the
expression `pl.col(c).dt.year()`. -/
inductive PKey where
  | col (name : String)
  | yearOf (colName : String)
deriving DecidableEq, Repr

/-- The persisted partition-key name computed by `Database._execute_create`:
a year expression over column `c` becomes `c ++ "_year"` (the regex over
`str(expr)` always matches for a well-formed column expression). -/
def pkName : PKey → String
  | .col n => n
  | .yearOf c => c ++ "_year"

/-- `pl.col(base).dt.year()` evaluated on one cell.  On a non-temporal value
polars would raise; conforming data never reaches that branch, which is
modelled as `null`. -/
def yearOfValue : Value → Value
  | .date y _ _ => .int y
  | .datetime y _ _ _ _ _ => .int y
  | _ => .null

/-- One step of the derived-partition-column loop in `Database.insert`:
when the key name contains `"_year"` and is not already a column, materialize
it from the base column (`key.replace("_year", "")`) when that base exists. -/
def addDerivedKey (df : DataFrame) (key : String) : DataFrame :=
  if strContains key "_year" && !((df.cols.map Prod.fst).contains key) then
    let base := stripYear key
    if (df.cols.map Prod.fst).contains base then
      { cols := df.cols ++ [(key, .int32)],
        rows := df.rows.map (fun r =>
          r ++ [(key, ((alookup r base).map yearOfValue).getD .null)]) }
    else df
  else df

/-- The full derived-column loop of `Database.insert`. -/
def dataWithPartitions (df : DataFrame) (pkNames : List String) : DataFrame :=
  pkNames.foldl addDerivedKey df

/-- A row's partition-key tuple. -/
def keyTuple (pkNames : List String) (r : Row) : List (Option Value) :=
  pkNames.map (alookup r)

/-- Add a row to the group carrying its key tuple (creating the group at the
end on first appearance). -/
def addToGroups (k : List (Option Value)) (r : Row) :
    List (List (Option Value) × List Row) → List (List (Option Value) × List Row)
  | [] => [(k, [r])]
  | (k2, g) :: rest =>
    if k2 = k then (k2, g ++ [r]) :: rest else (k2, g) :: addToGroups k r rest

/-- Accumulator loop for `group_by`. -/
def groupRowsAux (pk : List String) :
    List Row → List (List (Option Value) × List Row) → List (List (Option Value) × List Row)
  | [], acc => acc
  | r :: rest, acc => groupRowsAux pk rest (addToGroups (keyTuple pk r) r acc)

/-- `data.group_by(partition_keys)`: distinct key tuples in order of first
appearance, each with its rows in original order. -/
def groupRows (pk : List String) (rows : List Row) :
    List (List (Option Value) × List Row) :=
  groupRowsAux pk rows []

/-- The dtype of one cell, for schema inference on scanned rows. -/
def typeOfValue : Value → PolarsType
  | .int _ => .int64
  | .str _ => .string
  | .bool _ => .boolean
  | .date _ _ _ => .date
  | .datetime _ _ _ _ _ _ => .datetime
  | .null => .string

/-- The schema a scan reports for a set of rows (parquet files are
self-describing; the first row determines the inferred columns). -/
def inferCols : List Row → List (String × PolarsType)
  | [] => []
  | r :: _ => r.map (fun p => (p.1, typeOfValue p.2))

/-- An arbitrary total order on cell values, used only to give the sort
stage a definite meaning. -/
def valLe (a b : Value) : Bool :=
  let key : Value → Nat × Int × String := fun v =>
    match v with
    | .null => (0, 0, "")
    | .bool x => (1, if x then 1 else 0, "")
    | .int i => (2, i, "")
    | .date y m d => (3, y * 10000 + (m : Int) * 100 + (d : Int), "")
    | .datetime y mo d h mi s =>
        (4, ((((y * 13 + (mo : Int)) * 32 + (d : Int)) * 24 + (h : Int)) * 60
              + (mi : Int)) * 60 + (s : Int), "")
    | .str s => (5, 0, s)
  let (n1, i1, s1) := key a
  let (n2, i2, s2) := key b
  decide (n1 < n2) ||
    (decide (n1 = n2) &&
      (decide (i1 < i2) || (decide (i1 = i2) && decide (s1 ≤ s2))))

/-- Lexicographic row comparison over the sort column list. -/
def rowLe (cols : List String) (a b : Row) : Bool :=
  match cols with
  | [] => true
  | c :: rest =>
    let va := (alookup a c).getD .null
    let vb := (alookup b c).getD .null
    if va = vb then rowLe rest a b else valLe va vb

/-- Insertion into a sorted list (the sort stage of the query pipeline). -/
def insertSorted (le : Row → Row → Bool) (x : Row) : List Row → List Row
  | [] => [x]
  | y :: ys => if le x y then x :: y :: ys else y :: insertSorted le x ys

/-- `df.sort(columns)` (stability is irrelevant to the claims). -/
def sortRows (le : Row → Row → Bool) : List Row → List Row
  | [] => []
  | x :: xs => insertSorted le x (sortRows le xs)

/-- `df.select(columns)` on one row. -/
def projectRow (cols : List String) (r : Row) : Row :=
  cols.filterMap (fun c => (alookup r c).map (fun v => (c, v)))

/-- The query object built by `TableQuery` in `src/bear_lake/table.py`:
table name, optional projection, conjunctive filters, joins
(other table, join column, join kind) and sort columns. -/
structure TableQuery where
  tableName : String
  selectedColumns : Option (List String)
  filters : List (Row → Bool)
  joins : List (String × String × String)
  sortColumns : List String

/-- `TableQuery(table)`: a fresh query with no projection, filters, joins or
sort. -/
def unfilteredQuery (t : String) : TableQuery :=
  ⟨t, none, [], [], []⟩

/-- Scanning the joined table's files inside `Database.query`: when the table
directory holds no parquet file at all, both the recursive scan and the
root-glob fallback fail, so the query propagates the scan failure. -/
def scanOther (db : DB) (t : String) : Except DBError (List Row) :=
  let files := ((db.getDir t).getD ⟨none, []⟩).files
  if files.isEmpty then .error (.scanFailure t)
  else .ok (files.flatMap DataFile.rows)

/-- One polars join: keep left rows matched in the right scan and append the
right row's non-key columns.  The join kind is forwarded by the source to the
dataframe collaborator; the inner kind is the one modelled. -/
def joinRows (leftRows rightRows : List Row) (onCol : String) : List Row :=
  leftRows.flatMap (fun r =>
    (rightRows.filter (fun r2 => decide (alookup r2 onCol = alookup r onCol))).map
      (fun r2 => r ++ r2.filter (fun p => decide (p.1 ≠ onCol))))

/-- The join loop of `Database.query`, in declaration order. -/
def joinFold (db : DB) : List (String × String × String) → List Row → Except DBError (List Row)
  | [], rows => .ok rows
  | (ot, onCol, _) :: rest, rows =>
    match scanOther db ot with
    | .error e => .error e
    | .ok orows => joinFold db rest (joinRows rows orows onCol)

/-- `Database.query`: existence check, scan (with the zero-file fallback that
returns an empty frame typed by the table's declared schema, before filters
or projection run), then filters → joins → sort → projection → collect. -/
def query (db : DB) (q : TableQuery) : Except DBError DataFrame :=
  if !(table_exists db q.tableName) then .error (.tableNotFound q.tableName)
  else
    let files := ((db.getDir q.tableName).getD ⟨none, []⟩).files
    if files.isEmpty then
      match get_schema db q.tableName with
      | .error e => .error e
      | .ok schema => .ok ⟨schema, []⟩
    else
      let rows0 := files.flatMap DataFile.rows
      let rows1 := q.filters.foldl (fun acc f => acc.filter f) rows0
      match joinFold db q.joins rows1 with
      | .error e => .error e
      | .ok rows2 =>
        let rows3 :=
          if q.sortColumns.isEmpty then rows2
          else sortRows (rowLe q.sortColumns) rows2
        let cols := inferCols rows3
        match q.selectedColumns with
        | none => .ok ⟨cols, rows3⟩
        | some sel =>
          match sel.find? (fun c => !((cols.map Prod.fst).contains c)) with
          | some c => .error (.columnNotFound c)
          | none =>
            .ok ⟨sel.map (fun c => (c, (alookup cols c).getD .string)),
                 rows3.map (projectRow sel)⟩

/-- `Database._execute_drop`: `rmtree` the table directory, then unlink the
metadata record. -/
def execute_drop (db : DB) (t : String) : Except DBError Unit × DB :=
  if table_exists db t then (.ok (), db.eraseDir t)
  else (.error (.tableNotFound t), db)

/-- Python dict equality between two schemas (key-set and values agree,
order-insensitive). -/
def schemaDictEq (a b : List (String × PolarsType)) : Bool :=
  a.all (fun p => decide (alookup b p.1 = some p.2)) &&
    b.all (fun p => decide (alookup a p.1 = some p.2))

/-- `Database._execute_create`: the mode dispatch on an existing table,
then metadata creation (which keeps any surviving data files, since the
directory is made with `exist_ok=True`). -/
def execute_create (db : DB) (t : String) (schema : List (String × PolarsType))
    (pks : List PKey) (mode : String) : Except DBError Unit × DB :=
  if table_exists db t && mode == "error" then
    (.error (.tableAlreadyExists t), db)
  else if table_exists db t && mode == "append" then
    match get_schema db t with
    | .error e => (.error e, db)
    | .ok existing =>
      if schemaDictEq existing schema then (.ok (), db)
      else (.error (.schemaMismatch t), db)
  else
    let db1 := if table_exists db t && mode == "replace" then (execute_drop db t).2 else db
    (.ok (), create_table_metadata db1 t schema (pks.map pkName))

/-- `Database.insert`: existence check, schema validation, then either a
partitioned write (derive year columns, group by the partition-key tuple and
write one file per tuple) or a single sequentially numbered file at the table
root; `last_modified` is touched only on success. -/
def insert (db : DB) (t : String) (df : DataFrame) : Except DBError Unit × DB :=
  if !(table_exists db t) then (.error (.tableNotFound t), db)
  else
    match validate_schema db t df with
    | .error e => (.error e, db)
    | .ok _ =>
      let meta := (get_table_metadata db t).getD ⟨[], [], 0, 0⟩
      let pkNames := meta.partitionKeys
      let dir := (db.getDir t).getD ⟨none, []⟩
      if pkNames.isEmpty then
        let db2 := db.setDir t { dir with files := dir.files ++ [⟨[], df.rows⟩] }
        (.ok (), update_last_modified db2 t)
      else
        let dfp := dataWithPartitions df pkNames
        match pkNames.find? (fun k => !((dfp.cols.map Prod.fst).contains k)) with
        | some k => (.error (.columnNotFound k), db)
        | none =>
          let groups := groupRows pkNames dfp.rows
          let newFiles := groups.map (fun g => (⟨pkNames.zip g.1, g.2⟩ : DataFile))
          let db2 := db.setDir t { dir with files := dir.files ++ newFiles }
          (.ok (), update_last_modified db2 t)

/-- `Database._execute_delete`: read the whole table, keep the rows where the
predicate is false, `rmtree` the table directory (which also removes
`metadata.json`), re-create the bare directory, write the kept rows into a
single root file when non-empty, and call `update_last_modified` (a silent
no-op now that the metadata sidecar is gone). -/
def execute_delete (db : DB) (t : String) (cond : Row → Bool) : Except DBError Unit × DB :=
  if !(table_exists db t) then (.error (.tableNotFound t), db)
  else
    match query db (unfilteredQuery t) with
    | .error e => (.error e, db)
    | .ok df =>
      let kept := df.rows.filter (fun r => !(cond r))
      let dir1 : TableDir := ⟨none, if kept.isEmpty then [] else [⟨[], kept⟩]⟩
      let db2 := db.setDir t dir1
      (.ok (), update_last_modified db2 t)

/-- Accumulator loop for `df.unique()` (first occurrence kept). -/
def dedupAux : List Row → List Row → List Row
  | [], _ => []
  | r :: rest, seen =>
    if seen.any (fun x => decide (x = r)) then dedupAux rest seen
    else r :: dedupAux rest (r :: seen)

/-- `df.unique()`: drop full-row duplicates. -/
def dedup (rows : List Row) : List Row :=
  dedupAux rows []

/-- `Database.optimize`: read and dedup the table, `rmtree` + `mkdir` the
directory (destroying `metadata.json`), then fetch the metadata again — which
now returns `None`, so the subsequent `.get("partition_keys")` raises
`AttributeError` before anything is rewritten.  The arm below the `none`
branch is the rewrite the code would perform had the metadata survived. -/
def optimize (db : DB) (t : String) : Except DBError Unit × DB :=
  if !(table_exists db t) then (.error (.tableNotFound t), db)
  else
    match query db (unfilteredQuery t) with
    | .error e => (.error e, db)
    | .ok df =>
      let uniq := dedup df.rows
      let db2 := db.setDir t ⟨none, []⟩
      match get_table_metadata db2 t with
      | none => (.error .attributeErrorNoneGet, db2)
      | some meta =>
        if meta.partitionKeys.isEmpty then
          let db3 := db2.setDir t ⟨some meta, [⟨[], uniq⟩]⟩
          (.ok (), update_last_modified db3 t)
        else
          let groups := groupRows meta.partitionKeys uniq
          let db3 := db2.setDir t
            ⟨some meta, groups.map (fun g => ⟨meta.partitionKeys.zip g.1, g.2⟩)⟩
          (.ok (), update_last_modified db3 t)

/-- The closed operation variant set consumed by `Database.command` (the
unknown-variant branch is unreachable in this typed model). -/
inductive Operation where
  | create (t : String) (schema : List (String × PolarsType)) (pks : List PKey) (mode : String)
  | drop (t : String)
  | delete (t : String) (cond : Row → Bool)

/-- `Database.command`: exhaustive dispatch over the operation variants. -/
def command (db : DB) (op : Operation) : Except DBError Unit × DB :=
  match op with
  | .create t s p m => execute_create db t s p m
  | .drop t => execute_drop db t
  | .delete t c => execute_delete db t c

/-- Did the call succeed? -/
def okB {α : Type} (e : Except DBError α) : Bool :=
  match e with
  | .ok _ => true
  | .error _ => false

/-- The rows of a query result (empty on failure). -/
def rowsOf (e : Except DBError DataFrame) : List Row :=
  match e with
  | .ok d => d.rows
  | .error _ => []

/-- All rows of one physical file agree on every partition-key column. -/
def fileHomogB (pk : List String) (f : DataFile) : Bool :=
  f.rows.all (fun r1 => f.rows.all (fun r2 => decide (keyTuple pk r1 = keyTuple pk r2)))

/-- Every physical file of the table is homogeneous in the table's declared
partition keys. -/
def tableFilesHomogB (db : DB) (t : String) : Bool :=
  (((db.getDir t).getD ⟨none, []⟩).files).all
    (fileHomogB (((get_table_metadata db t).getD ⟨[], [], 0, 0⟩).partitionKeys))

/-- The table's data files (empty when the directory is absent). -/
def filesOf (db : DB) (t : String) : List DataFile :=
  ((db.getDir t).getD ⟨none, []⟩).files

/- Concrete scenario states used by the closed counterexample / evaluation
theorems below. -/

/-- An unpartitioned one-column table `t` on a fresh database. -/
def demoDb1 : DB :=
  (execute_create emptyDB "t" [("id", PolarsType.int64)] [] "error").2

/-- `demoDb1` after inserting the rows `id=1` and `id=2`. -/
def demoDb2 : DB :=
  (insert demoDb1 "t"
    ⟨[("id", PolarsType.int64)], [[("id", Value.int 1)], [("id", Value.int 2)]]⟩).2

/-- The delete predicate `pl.col("id") == 1`. -/
def demoPred : Row → Bool := fun r => decide (alookup r "id" = some (Value.int 1))

/-- `demoDb2` after `delete(t, id == 1)`. -/
def demoDel : DB := (execute_delete demoDb2 "t" demoPred).2

/-- A table partitioned on the derived key `year of d`, on a fresh database. -/
def derivedDb1 : DB :=
  (execute_create emptyDB "t" [("d", PolarsType.date), ("p", PolarsType.int64)]
    [PKey.yearOf "d"] "error").2

/-- The batch inserted into the derived-key table. -/
def derivedDf : DataFrame :=
  ⟨[("d", PolarsType.date), ("p", PolarsType.int64)],
   [[("d", Value.date 2024 1 1), ("p", Value.int 1)]]⟩

/-- `derivedDb1` after inserting `derivedDf`. -/
def derivedDb2 : DB := (insert derivedDb1 "t" derivedDf).2

/-- A table partitioned on the plain column `p`, on a fresh database. -/
def partDb1 : DB :=
  (execute_create emptyDB "t9" [("p", PolarsType.int64), ("x", PolarsType.int64)]
    [PKey.col "p"] "error").2

/-- Two rows in two distinct partitions. -/
def partDf : DataFrame :=
  ⟨[("p", PolarsType.int64), ("x", PolarsType.int64)],
   [[("p", Value.int 1), ("x", Value.int 10)], [("p", Value.int 2), ("x", Value.int 20)]]⟩

/-- `partDb1` after inserting `partDf`. -/
def partDb2 : DB := (insert partDb1 "t9" partDf).2

/-- `partDb2` after a delete that keeps every row (`~predicate` is always
true). -/
def partDel : DB := (execute_delete partDb2 "t9" (fun _ => false)).2

/-- A one-column `Date` table, on a fresh database. -/
def dateDb1 : DB :=
  (execute_create emptyDB "t6" [("d", PolarsType.date)] [] "error").2

/-- A batch whose `d` column is `Datetime`-typed — type-incompatible with the
declared `Date` column. -/
def dateBadDf : DataFrame :=
  ⟨[("d", PolarsType.datetime)], [[("d", Value.datetime 2024 1 1 12 0 0)]]⟩

/-- A one-column `Int8` table, on a fresh database. -/
def int8Db1 : DB :=
  (execute_create emptyDB "t4" [("x", PolarsType.int8)] [] "error").2

/-- A one-column `Int64` table `t5`, on a fresh database. -/
def c5Db1 : DB :=
  (execute_create emptyDB "t5" [("a", PolarsType.int64)] [] "error").2

/-- A two-column table `t8` with no data files, for the empty-scan claim. -/
def c8Db1 : DB :=
  (execute_create emptyDB "t8" [("a", PolarsType.int64), ("b", PolarsType.string)] [] "error").2

/-- A query on `t8` with projection, a filter and a sort. -/
def c8Query : TableQuery :=
  ⟨"t8", some ["a"], [fun r => decide (alookup r "a" = some (Value.int 1))], [], ["b"]⟩

/-- A database holding one registered table and one bare directory that has
data files but no `metadata.json` sidecar. -/
def c10Db : DB :=
  ⟨[("good", ⟨some ⟨[("id", "Int64")], [], 0, 0⟩, [⟨[], [[("id", Value.int 1)]]⟩]⟩),
    ("bare", ⟨none, [⟨[], [[("x", Value.int 7)]]⟩]⟩)], 5⟩

/-- A two-column table for the C1 witness. -/
def c1wDb1 : DB :=
  (execute_create emptyDB "tw1" [("a", PolarsType.int64)] [] "error").2

/-- The batch for the C1 witness. -/
def c1wDf : DataFrame :=
  ⟨[("a", PolarsType.int64)], [[("a", Value.int 1)], [("a", Value.int 2)]]⟩

/-- `c1wDb1` after inserting `c1wDf`. -/
def c1wDb2 : DB := (insert c1wDb1 "tw1" c1wDf).2

/-- A table with a required column `b` for the C6 witness. -/
def c6wDb1 : DB :=
  (execute_create emptyDB "tw6" [("a", PolarsType.int64), ("b", PolarsType.string)] [] "error").2

/-- A batch missing the required column `b`. -/
def c6wDf : DataFrame := ⟨[("a", PolarsType.int64)], [[("a", Value.int 3)]]⟩

/-- All groups carry exactly their key tuple. -/
def groupsHomog (pk : List String) (gs : List (List (Option Value) × List Row)) : Prop :=
  ∀ p ∈ gs, ∀ r ∈ p.2, keyTuple pk r = p.1

/- General lemmas about the directory map and the grouping loop. -/

theorem getEntry_setEntry_self (l : List (String × TableDir)) (t : String) (d : TableDir) :
    getEntry (setEntry l t d) t = some d := by
  induction l with
  | nil => simp [setEntry, getEntry]
  | cons p rest ih =>
    obtain ⟨k, v⟩ := p
    by_cases h : k = t
    · simp [setEntry, getEntry, h]
    · simp [setEntry, getEntry, h, ih]

theorem getEntry_eraseEntry_self (l : List (String × TableDir)) (t : String) :
    getEntry (eraseEntry l t) t = none := by
  induction l with
  | nil => simp [eraseEntry, getEntry]
  | cons p rest ih =>
    obtain ⟨k, v⟩ := p
    by_cases h : k = t
    · simp [eraseEntry, h, ih]
    · simp [eraseEntry, getEntry, h, ih]

theorem addToGroups_flat_perm (k : List (Option Value)) (r : Row)
    (acc : List (List (Option Value) × List Row)) :
    ((addToGroups k r acc).flatMap Prod.snd).Perm (acc.flatMap Prod.snd ++ [r]) := by
  induction acc with
  | nil => simp [addToGroups]
  | cons p rest ih =>
    obtain ⟨k2, g⟩ := p
    by_cases h : k2 = k
    · simp only [addToGroups, if_pos h, List.flatMap_cons, List.append_assoc]
      exact List.Perm.append_left g List.perm_append_comm
    · simp only [addToGroups, if_neg h, List.flatMap_cons, List.append_assoc]
      exact List.Perm.append_left g ih

theorem groupRowsAux_flat_perm (pk : List String) :
    ∀ (rows : List Row) (acc : List (List (Option Value) × List Row)),
      ((groupRowsAux pk rows acc).flatMap Prod.snd).Perm (acc.flatMap Prod.snd ++ rows) := by
  intro rows
  induction rows with
  | nil => intro acc; simp [groupRowsAux]
  | cons r rest ih =>
    intro acc
    rw [groupRowsAux]
    have h1 := ih (addToGroups (keyTuple pk r) r acc)
    have h2 := (addToGroups_flat_perm (keyTuple pk r) r acc).append_right rest
    refine h1.trans (h2.trans ?_)
    simp

theorem groupRows_flat_perm (pk : List String) (rows : List Row) :
    ((groupRows pk rows).flatMap Prod.snd).Perm rows := by
  simpa [groupRows] using groupRowsAux_flat_perm pk rows []

theorem addToGroups_homog (pk : List String) (k : List (Option Value)) (r : Row)
    (acc : List (List (Option Value) × List Row))
    (hacc : groupsHomog pk acc) (hr : keyTuple pk r = k) :
    groupsHomog pk (addToGroups k r acc) := by
  induction acc with
  | nil =>
    intro p hp r2 hr2
    simp [addToGroups] at hp
    subst hp
    simp at hr2
    subst hr2
    exact hr
  | cons q rest ih =>
    obtain ⟨k2, g⟩ := q
    by_cases h : k2 = k
    · intro p hp r2 hr2
      simp only [addToGroups, if_pos h, List.mem_cons] at hp
      rcases hp with hp | hp
      · subst hp
        simp only [List.mem_append, List.mem_singleton] at hr2
        rcases hr2 with hr2 | hr2
        · exact hacc (k2, g) (List.mem_cons_self _ _) r2 hr2
        · subst hr2; rw [hr, h]
      · exact hacc p (List.mem_cons_of_mem _ hp) r2 hr2
    · intro p hp r2 hr2
      simp only [addToGroups, if_neg h, List.mem_cons] at hp
      rcases hp with hp | hp
      · subst hp
        exact hacc (k2, g) (List.mem_cons_self _ _) r2 hr2
      · exact ih (fun q hq => hacc q (List.mem_cons_of_mem _ hq)) p hp r2 hr2

theorem groupRowsAux_homog (pk : List String) :
    ∀ (rows : List Row) (acc : List (List (Option Value) × List Row)),
      groupsHomog pk acc → groupsHomog pk (groupRowsAux pk rows acc) := by
  intro rows
  induction rows with
  | nil => intro acc hacc; simpa [groupRowsAux] using hacc
  | cons r rest ih =>
    intro acc hacc
    rw [groupRowsAux]
    exact ih _ (addToGroups_homog pk _ r acc hacc rfl)

theorem groupRows_homog (pk : List String) (rows : List Row) :
    groupsHomog pk (groupRows pk rows) := by
  exact groupRowsAux_homog pk rows [] (by intro p hp; simp at hp)

theorem addDerivedKey_of_mem (df : DataFrame) (k : String)
    (h : k ∈ df.cols.map Prod.fst) : addDerivedKey df k = df := by
  have hc : (df.cols.map Prod.fst).contains k = true := List.elem_eq_true_of_mem h
  unfold addDerivedKey
  rw [hc]
  simp

theorem dataWithPartitions_of_mem (df : DataFrame) (pkNames : List String)
    (h : ∀ k ∈ pkNames, k ∈ df.cols.map Prod.fst) :
    dataWithPartitions df pkNames = df := by
  induction pkNames with
  | nil => rfl
  | cons k ks ih =>
    have h1 : addDerivedKey df k = df := addDerivedKey_of_mem df k (h k (by simp))
    simp only [dataWithPartitions, List.foldl_cons, h1]
    exact ih (fun k2 hk2 => h k2 (by simp [hk2]))

theorem validateCols_missing (c : String) :
    ∀ (schema : List (String × String)) (cols : List (String × PolarsType)),
      validateCols schema cols = .error (.missingColumn c) →
      alookup cols c = none ∧ ∃ tag, (c, tag) ∈ schema := by
  intro schema
  induction schema with
  | nil => intro cols h; simp [validateCols] at h
  | cons p rest ih =>
    obtain ⟨c2, tag⟩ := p
    intro cols h
    simp only [validateCols] at h
    split at h
    next ha =>
      have hc : c2 = c := by
        have h2 := Except.error.inj h
        exact DBError.missingColumn.inj h2
      subst hc
      exact ⟨ha, tag, by simp⟩
    next actual ha =>
      split at h
      next hcompat =>
        obtain ⟨h1, tag2, h2⟩ := ih cols h
        exact ⟨h1, tag2, by simp [h2]⟩
      next hcompat =>
        simp at h

theorem validateCols_mismatch (c : String) :
    ∀ (schema : List (String × String)) (cols : List (String × PolarsType)),
      validateCols schema cols = .error (.typeMismatch c) →
      ∃ tag actual, (c, tag) ∈ schema ∧ alookup cols c = some actual ∧
        typeCompatible tag actual = false := by
  intro schema
  induction schema with
  | nil => intro cols h; simp [validateCols] at h
  | cons p rest ih =>
    obtain ⟨c2, tag⟩ := p
    intro cols h
    simp only [validateCols] at h
    split at h
    next ha =>
      simp at h
    next actual ha =>
      split at h
      next hcompat =>
        obtain ⟨tag2, actual2, h1, h2, h3⟩ := ih cols h
        exact ⟨tag2, actual2, by simp [h1], h2, h3⟩
      next hcompat =>
        have hc : c2 = c := by
          have h2 := Except.error.inj h
          exact DBError.typeMismatch.inj h2
        subst hc
        exact ⟨tag, actual, by simp, ha, by simpa using hcompat⟩

theorem table_exists_of_dir (db : DB) (t : String) (m : TableMeta) (fs : List DataFile)
    (hdir : db.getDir t = some ⟨some m, fs⟩) : table_exists db t = true := by
  simp [table_exists, hdir]

theorem get_table_metadata_of_dir (db : DB) (t : String) (m : TableMeta) (fs : List DataFile)
    (hdir : db.getDir t = some ⟨some m, fs⟩) : get_table_metadata db t = some m := by
  simp [get_table_metadata, hdir]

theorem query_zero_files (db : DB) (q : TableQuery) (m : TableMeta)
    (hdir : db.getDir q.tableName = some ⟨some m, []⟩) :
    query db q = .ok ⟨m.schema.map (fun p => (p.1, string_to_polars_type p.2)), []⟩ := by
  simp [query, table_exists, hdir, get_schema, get_table_metadata]

theorem query_unfiltered_files (db : DB) (t : String) (m : TableMeta) (fs : List DataFile)
    (hdir : db.getDir t = some ⟨some m, fs⟩) (hne : fs ≠ []) :
    query db (unfilteredQuery t) =
      .ok ⟨inferCols (fs.flatMap DataFile.rows), fs.flatMap DataFile.rows⟩ := by
  obtain ⟨f, fs2, rfl⟩ : ∃ f fs2, fs = f :: fs2 := by
    cases fs with
    | nil => exact absurd rfl hne
    | cons f fs2 => exact ⟨f, fs2, rfl⟩
  simp [query, unfilteredQuery, table_exists, hdir, joinFold]

theorem insert_ok_unpart (db db2 : DB) (t : String) (df : DataFrame)
    (d : TableDir) (m : TableMeta)
    (hdir : db.getDir t = some d) (hm : d.metadataJson = some m)
    (hpk : m.partitionKeys = [])
    (hins : insert db t df = (.ok (), db2)) :
    db2.getDir t =
      some ⟨some { m with lastModified := db.clock }, d.files ++ [⟨[], df.rows⟩]⟩ := by
  obtain ⟨dmj, dfl⟩ := d
  simp only at hm
  subst hm
  have hte : table_exists db t = true := by simp [table_exists, hdir]
  have hmeta : get_table_metadata db t = some m := by simp [get_table_metadata, hdir]
  rw [insert] at hins
  rw [hte] at hins
  simp only [Bool.not_true, Bool.false_eq_true, if_false, reduceIte] at hins
  cases hval : validate_schema db t df with
  | error e => rw [hval] at hins; simp at hins
  | ok u =>
    rw [hval] at hins
    simp only [hmeta, Option.getD_some, hdir, hpk, List.isEmpty_nil, if_true] at hins
    have h2 := congrArg Prod.snd hins
    simp only at h2
    rw [← h2]
    rw [update_last_modified]
    have hset : (db.setDir t ⟨some m, dfl ++ [⟨[], df.rows⟩]⟩).getDir t =
        some ⟨some m, dfl ++ [⟨[], df.rows⟩]⟩ := by
      simp [DB.setDir, DB.getDir, getEntry_setEntry_self]
    have hmeta2 : get_table_metadata (db.setDir t ⟨some m, dfl ++ [⟨[], df.rows⟩]⟩) t =
        some m := by
      simp [get_table_metadata, hset]
    rw [hmeta2]
    simp only [hset, Option.getD_some]
    simp [DB.setDir, DB.getDir, getEntry_setEntry_self]

theorem insert_ok_part (db db2 : DB) (t : String) (df : DataFrame)
    (d : TableDir) (m : TableMeta)
    (hdir : db.getDir t = some d) (hm : d.metadataJson = some m)
    (hpk : m.partitionKeys ≠ [])
    (hins : insert db t df = (.ok (), db2)) :
    db2.getDir t =
      some ⟨some { m with lastModified := db.clock },
        d.files ++ (groupRows m.partitionKeys (dataWithPartitions df m.partitionKeys).rows).map
          (fun g => ⟨m.partitionKeys.zip g.1, g.2⟩)⟩ := by
  obtain ⟨dmj, dfl⟩ := d
  simp only at hm
  subst hm
  have hte : table_exists db t = true := by simp [table_exists, hdir]
  have hmeta : get_table_metadata db t = some m := by simp [get_table_metadata, hdir]
  have hpke : m.partitionKeys.isEmpty = false := by
    cases hx : m.partitionKeys with
    | nil => exact absurd hx hpk
    | cons a b => simp
  rw [insert] at hins
  rw [hte] at hins
  simp only [Bool.not_true, Bool.false_eq_true, if_false, reduceIte] at hins
  cases hval : validate_schema db t df with
  | error e => rw [hval] at hins; simp at hins
  | ok u =>
    rw [hval] at hins
    simp only [hmeta, Option.getD_some, hdir, hpke, Bool.false_eq_true, if_false, reduceIte] at hins
    cases hfind : m.partitionKeys.find?
        (fun k => !(((dataWithPartitions df m.partitionKeys).cols.map Prod.fst).contains k)) with
    | some k => rw [hfind] at hins; simp at hins
    | none =>
      rw [hfind] at hins
      have h2 := congrArg Prod.snd hins
      simp only at h2
      rw [← h2]
      set nf := (groupRows m.partitionKeys (dataWithPartitions df m.partitionKeys).rows).map
        (fun g => (⟨m.partitionKeys.zip g.1, g.2⟩ : DataFile)) with hnf
      rw [update_last_modified]
      have hset : (db.setDir t ⟨some m, dfl ++ nf⟩).getDir t =
          some ⟨some m, dfl ++ nf⟩ := by
        simp [DB.setDir, DB.getDir, getEntry_setEntry_self]
      have hmeta2 : get_table_metadata (db.setDir t ⟨some m, dfl ++ nf⟩) t =
          some m := by
        simp [get_table_metadata, hset]
      rw [hmeta2]
      simp only [hset, Option.getD_some]
      simp [DB.setDir, DB.getDir, getEntry_setEntry_self]

/-- C2: the claim says a delete followed by an unfiltered query returns the
kept rows with the metadata record intact and the table still listed.  The
code instead `rmtree`s the whole table directory — `metadata.json` included —
and never rewrites the sidecar, so after deleting `id == 1` from a two-row
table the table is unregistered (`table_exists` false, absent from `list`),
the follow-up query raises `TableNotFound`, and the kept row sits in an
orphaned root file. -/
theorem C2_delete_destroys_metadata :
    (execute_delete demoDb2 "t" demoPred).1 = .ok () ∧
    table_exists demoDel "t" = false ∧
    list_tables demoDel = [] ∧
    query demoDel (unfilteredQuery "t") = .error (.tableNotFound "t") ∧
    demoDel.getDir "t" = some ⟨none, [⟨[], [[("id", Value.int 2)]]⟩]⟩ := by
  decide

/-- C7: the claim says optimize dedups and compacts, and is idempotent.  The
code `rmtree`s the table directory (destroying `metadata.json`), then calls
`.get("partition_keys")` on the `None` returned by `get_table_metadata`,
raising `AttributeError` with the table left empty; a second optimize then
raises `TableNotFound` — nothing is compacted and nothing is idempotent. -/
theorem C7_optimize_crashes :
    (optimize demoDb2 "t").1 = .error .attributeErrorNoneGet ∧
    (optimize demoDb2 "t").2.getDir "t" = some ⟨none, []⟩ ∧
    table_exists (optimize demoDb2 "t").2 "t" = false ∧
    (optimize (optimize demoDb2 "t").2 "t").1 = .error (.tableNotFound "t") := by
  decide

/-- C3: the claim says an unrecognized stored type tag always fails with
`SchemaDecodeError` and is never executed or silently replaced.  The
metadata-store decoder instead substitutes `pl.String` for every unknown tag
(including the `List(Int64)` encoding its own encoder produces), and the
legacy decoder in `__init__.py` hands every unknown tag to Python `eval`. -/
theorem C3_decoder_executes_or_substitutes :
    string_to_polars_type "List(Int64)" = PolarsType.string ∧
    string_to_polars_type "UInt16" = PolarsType.string ∧
    deserialize_dtype "List(Int64)" = DecodeResult.evalFallback "List(Int64)" ∧
    deserialize_dtype "Bogus" = DecodeResult.evalFallback "Bogus" ∧
    deserialize_dtype "Int8" = DecodeResult.typ PolarsType.int8 := by
  decide

/-- C4: the claim says type-tag encode-then-decode is the identity on every
supported tag (the full closed enumeration plus a nested type).  It is the
identity exactly on the eight tags of the decoder's map; `Int8` (stored
faithfully as `"Int8"`) decodes to `String`, as do `Duration` and the nested
`List(Int64)`, so `get` after `create` returns a schema different from the
one declared (`list` does include the table). -/
theorem C4_roundtrip_not_identity :
    list_tables int8Db1 = ["t4"] ∧
    schemaOf int8Db1 "t4" = some [("x", PolarsType.string)] ∧
    schemaOf int8Db1 "t4" ≠ some [("x", PolarsType.int8)] ∧
    roundTrip .int8 = .string ∧
    roundTrip (.list .int64) = .string ∧
    roundTrip .duration = .string ∧
    roundTrip .string = .string ∧ roundTrip .int64 = .int64 ∧ roundTrip .int32 = .int32 ∧
    roundTrip .float64 = .float64 ∧ roundTrip .float32 = .float32 ∧
    roundTrip .date = .date ∧ roundTrip .datetime = .datetime ∧
    roundTrip .boolean = .boolean := by
  decide

/-- C1 counterexample: for a table partitioned on the derived key
`year of d`, insert materializes the `d_year` column, and the unfiltered
query returns it, so the returned row set is *not* the inserted row set. -/
theorem C1_derived_key_augments_rows :
    (insert derivedDb1 "t" derivedDf).1 = .ok () ∧
    rowsOf (query derivedDb2 (unfilteredQuery "t")) =
      [[("d", Value.date 2024 1 1), ("p", Value.int 1), ("d_year", Value.int 2024)]] ∧
    ¬ (rowsOf (query derivedDb2 (unfilteredQuery "t"))).Perm derivedDf.rows := by
  decide

/-- C5 counterexample: `create(mode=replace)` with the schema `{a: Int8}`
succeeds, but the table it yields reports schema `{a: String}` (the lossy
tag decoder), not the new schema — refuting the claim as stated. -/
theorem C5_replace_schema_not_preserved :
    table_exists c5Db1 "t5" = true ∧
    (execute_create c5Db1 "t5" [("a", PolarsType.int8)] [] "replace").1 = .ok () ∧
    schemaOf (execute_create c5Db1 "t5" [("a", PolarsType.int8)] [] "replace").2 "t5" =
      some [("a", PolarsType.string)] ∧
    schemaOf (execute_create c5Db1 "t5" [("a", PolarsType.int8)] [] "replace").2 "t5" ≠
      some [("a", PolarsType.int8)] := by
  decide

/-- C6 counterexample: a `Datetime`-typed column inserted where the schema
declares `Date` is type-incompatible, yet validation passes — the check
accepts any dtype whose string merely *contains* the stored tag
(`"Date"` is a prefix of `"Datetime(...)"`) — and the file is written. -/
theorem C6_datetime_accepted_for_date :
    (get_table_metadata dateDb1 "t6").map TableMeta.schema = some [("d", "Date")] ∧
    (insert dateDb1 "t6" dateBadDf).1 = .ok () ∧
    filesOf (insert dateDb1 "t6" dateBadDf).2 "t6" =
      [⟨[], [[("d", Value.datetime 2024 1 1 12 0 0)]]⟩] := by
  decide

/-- C9 counterexample: after inserting two rows into distinct partitions of a
table partitioned on `p` (files homogeneous), a delete that keeps every row
rewrites the whole table as one root file holding both partition values —
the per-file homogeneity invariant does not survive delete. -/
theorem C9_delete_mixes_partitions :
    (get_table_metadata partDb2 "t9").map TableMeta.partitionKeys = some ["p"] ∧
    tableFilesHomogB partDb2 "t9" = true ∧
    (execute_delete partDb2 "t9" (fun _ => false)).1 = .ok () ∧
    filesOf partDel "t9" =
      [⟨[], [[("p", Value.int 1), ("x", Value.int 10)],
             [("p", Value.int 2), ("x", Value.int 20)]]⟩] ∧
    fileHomogB ["p"] ⟨[], [[("p", Value.int 1), ("x", Value.int 10)],
      [("p", Value.int 2), ("x", Value.int 20)]]⟩ = false := by
  decide

/-- C1 (amended): for a freshly created table whose partition keys are plain
columns of the inserted batch (in particular any unpartitioned table), a
successful insert followed by a query with no filters, joins, sorts or
projection succeeds and returns exactly the inserted rows, up to order.  (For
derived partition keys the result additionally carries the materialized
derived column — see the counterexample.) -/
theorem C1_fresh_insert_query_returns_rows
    (t : String) (schema : List (String × PolarsType)) (pks : List PKey)
    (df : DataFrame) (db1 db2 : DB)
    (hcreate : execute_create emptyDB t schema pks "error" = (.ok (), db1))
    (hplain : ∀ pk ∈ pks, ∃ c, pk = PKey.col c ∧ c ∈ df.cols.map Prod.fst)
    (hins : insert db1 t df = (.ok (), db2)) :
    okB (query db2 (unfilteredQuery t)) = true ∧
    (rowsOf (query db2 (unfilteredQuery t))).Perm df.rows := by
  have hte0 : table_exists emptyDB t = false := by
    simp [table_exists, emptyDB, DB.getDir, getEntry]
  rw [execute_create] at hcreate
  rw [hte0] at hcreate
  simp only [Bool.false_and, Bool.false_eq_true, if_false, reduceIte] at hcreate
  have hdb1 : db1 = create_table_metadata emptyDB t schema (pks.map pkName) := by
    have h2 := congrArg Prod.snd hcreate
    simpa using h2.symm
  have hdir1 : db1.getDir t =
      some ⟨some ⟨schema.map (fun p => (p.1, polars_type_to_string p.2)), pks.map pkName, 0, 0⟩,
            []⟩ := by
    rw [hdb1]
    simp [create_table_metadata, emptyDB, DB.getDir, DB.setDir, getEntry, setEntry]
  set meta : TableMeta :=
    ⟨schema.map (fun p => (p.1, polars_type_to_string p.2)), pks.map pkName, 0, 0⟩ with hmeta
  cases hpn : pks.map pkName with
  | nil =>
    have hup := insert_ok_unpart db1 db2 t df _ meta hdir1 rfl (by rw [hmeta, hpn]) hins
    simp only [List.nil_append] at hup
    have hq := query_unfiltered_files db2 t _ [⟨[], df.rows⟩] hup (by simp)
    simp only [List.flatMap_cons, List.flatMap_nil, List.append_nil] at hq
    rw [hq]
    exact ⟨rfl, List.Perm.refl _⟩
  | cons k ks =>
    have hmem : ∀ kk ∈ pks.map pkName, kk ∈ df.cols.map Prod.fst := by
      intro kk hkk
      obtain ⟨pk, hpk, rfl⟩ := List.mem_map.mp hkk
      obtain ⟨c, hceq, hcmem⟩ := hplain pk hpk
      rw [hceq]
      simpa [pkName] using hcmem
    have hdwp : dataWithPartitions df (pks.map pkName) = df :=
      dataWithPartitions_of_mem df (pks.map pkName) hmem
    have hpart := insert_ok_part db1 db2 t df _ meta hdir1 rfl
      (by rw [hmeta, hpn]; simp) hins
    rw [hmeta] at hpart
    simp only at hpart
    rw [hdwp] at hpart
    simp only [List.nil_append] at hpart
    have hperm := groupRows_flat_perm (pks.map pkName) df.rows
    cases hg : groupRows (pks.map pkName) df.rows with
    | nil =>
      rw [hg] at hpart hperm
      simp only [List.flatMap_nil] at hperm
      have hrows : df.rows = [] := (hperm.symm).eq_nil
      simp only [List.map_nil] at hpart
      have hq := query_zero_files db2 (unfilteredQuery t) _ hpart
      rw [hq]
      rw [hrows]
      exact ⟨rfl, List.Perm.refl _⟩
    | cons g gs =>
      rw [hg] at hpart hperm
      have hq := query_unfiltered_files db2 t _ _ hpart (by simp)
      rw [hq]
      refine ⟨rfl, ?_⟩
      have hflat : (((g :: gs).map
            (fun g => (⟨(pks.map pkName).zip g.1, g.2⟩ : DataFile))).flatMap DataFile.rows) =
          ((g :: gs).flatMap Prod.snd) := by
        simp [List.flatMap_map]
      simp only [rowsOf]
      rw [hflat]
      exact hperm

/-- Witness for C1: a fresh unpartitioned table gets two rows inserted and
the unfiltered query returns them. -/
theorem C1_fresh_insert_query_returns_rows_witness :
    okB (query c1wDb2 (unfilteredQuery "tw1")) = true ∧
    (rowsOf (query c1wDb2 (unfilteredQuery "tw1"))).Perm
      [[("a", Value.int 1)], [("a", Value.int 2)]] := by
  have h := C1_fresh_insert_query_returns_rows "tw1" [("a", PolarsType.int64)] []
    c1wDf c1wDb1 c1wDb2 (by decide) (by simp) (by decide)
  exact h

/-- C5 (amended): on an existing table, `create(mode=error)` fails
`TableAlreadyExists`; `create(mode=replace)` always succeeds, stores exactly
the encoding of the requested schema and leaves zero data files (the
*retrieved* schema equals the requested one only when every column tag
round-trips — see the counterexample); `create(mode=append)` is a no-op
exactly when the decoded stored schema dict-equals the requested schema, and
fails `SchemaMismatch` otherwise. -/
theorem C5_create_modes (db : DB) (t : String) (S : List (String × PolarsType))
    (pks : List PKey) (hex : table_exists db t = true) :
    execute_create db t S pks "error" = (.error (.tableAlreadyExists t), db) ∧
    ((execute_create db t S pks "replace").1 = .ok () ∧
      (get_table_metadata (execute_create db t S pks "replace").2 t).map TableMeta.schema =
        some (S.map (fun p => (p.1, polars_type_to_string p.2))) ∧
      filesOf (execute_create db t S pks "replace").2 t = []) ∧
    (∀ existing, get_schema db t = .ok existing →
      (schemaDictEq existing S = true → execute_create db t S pks "append" = (.ok (), db)) ∧
      (schemaDictEq existing S = false →
        execute_create db t S pks "append" = (.error (.schemaMismatch t), db))) := by
  refine ⟨?_, ⟨?_, ?_, ?_⟩, ?_⟩
  · simp [execute_create, hex]
  · simp [execute_create, hex, execute_drop]
  · simp [execute_create, hex, execute_drop, create_table_metadata, get_table_metadata,
      DB.getDir, DB.setDir, DB.eraseDir, getEntry_eraseEntry_self, getEntry_setEntry_self]
  · simp [execute_create, hex, execute_drop, create_table_metadata, filesOf, get_table_metadata,
      DB.getDir, DB.setDir, DB.eraseDir, getEntry_eraseEntry_self, getEntry_setEntry_self]
  · intro existing hx
    constructor
    · intro hdq
      simp [execute_create, hex, hx, hdq]
    · intro hdq
      simp [execute_create, hex, hx, hdq]

/-- Witness for C5: on the existing `t5` (schema `{a: Int64}`), mode `error`
fails, mode `replace` succeeds with zero files, and an `append` with the
identical schema is a no-op. -/
theorem C5_create_modes_witness :
    execute_create c5Db1 "t5" [("a", PolarsType.int64)] [] "error" =
      (.error (.tableAlreadyExists "t5"), c5Db1) ∧
    (execute_create c5Db1 "t5" [("a", PolarsType.int64)] [] "replace").1 = .ok () ∧
    filesOf (execute_create c5Db1 "t5" [("a", PolarsType.int64)] [] "replace").2 "t5" = [] ∧
    execute_create c5Db1 "t5" [("a", PolarsType.int64)] [] "append" = (.ok (), c5Db1) := by
  have h := C5_create_modes c5Db1 "t5" [("a", PolarsType.int64)] [] (by decide)
  refine ⟨h.1, h.2.1.1, h.2.1.2.2, ?_⟩
  exact (h.2.2 [("a", PolarsType.int64)] (by decide)).1 (by decide)

/-- C6 (amended): an insert whose batch fails schema validation — a missing
required column, or a column whose dtype string neither contains the stored
tag as a substring nor equals the decoded type's name — fails before any file
is written, naming the offending column, and leaves the database state
(files, metadata, `last_modified`) completely unchanged.  (A dtype whose
string merely contains the tag, such as `Datetime` where `Date` is declared,
is accepted — see the counterexample.) -/
theorem C6_invalid_insert_rejected (db : DB) (t : String) (df : DataFrame) (e : DBError)
    (hex : table_exists db t = true)
    (hv : validate_schema db t df = .error e) :
    insert db t df = (.error e, db) ∧
    (∀ c, e = .missingColumn c →
      alookup df.cols c = none ∧
        ∃ tag, (c, tag) ∈ ((get_table_metadata db t).getD ⟨[], [], 0, 0⟩).schema) ∧
    (∀ c, e = .typeMismatch c →
      ∃ tag actual, (c, tag) ∈ ((get_table_metadata db t).getD ⟨[], [], 0, 0⟩).schema ∧
        alookup df.cols c = some actual ∧ typeCompatible tag actual = false) := by
  obtain ⟨m, hmeta⟩ : ∃ m, get_table_metadata db t = some m := by
    rw [table_exists] at hex
    cases hdir : db.getDir t with
    | none => rw [hdir] at hex; simp at hex
    | some d =>
      rw [hdir] at hex
      change d.metadataJson.isSome = true at hex
      cases hmj : d.metadataJson with
      | none => rw [hmj] at hex; simp at hex
      | some m => exact ⟨m, by simp [get_table_metadata, hdir, hmj]⟩
  have hvc : validateCols m.schema df.cols = .error e := by
    rw [validate_schema, hmeta] at hv
    exact hv
  refine ⟨?_, ?_, ?_⟩
  · simp [insert, hex, hv]
  · intro c hc
    subst hc
    have h2 := validateCols_missing c m.schema df.cols hvc
    simpa [hmeta] using h2
  · intro c hc
    subst hc
    have h2 := validateCols_mismatch c m.schema df.cols hvc
    simpa [hmeta] using h2

/-- Witness for C6: inserting a batch that lacks the required column `b`
fails naming `b` and returns the database unchanged. -/
theorem C6_invalid_insert_rejected_witness :
    insert c6wDb1 "tw6" c6wDf = (.error (.missingColumn "b"), c6wDb1) ∧
    alookup c6wDf.cols "b" = none := by
  have h := C6_invalid_insert_rejected c6wDb1 "tw6" c6wDf (.missingColumn "b")
    (by decide) (by decide)
  exact ⟨h.1, (h.2.1 "b" rfl).1⟩

/-- C8: a query against a registered table with zero physical data files —
whatever its projection, filters, joins or sort — returns an empty result
whose schema is the table's full declared (decoded) schema, not the
post-projection schema. -/
theorem C8_zero_file_query_full_schema (db : DB) (q : TableQuery) (m : TableMeta)
    (hdir : db.getDir q.tableName = some ⟨some m, []⟩) :
    query db q = .ok ⟨m.schema.map (fun p => (p.1, string_to_polars_type p.2)), []⟩ :=
  query_zero_files db q m hdir

theorem contains_list_tables (l : List (String × TableDir)) (t : String)
    (hnd : (l.map Prod.fst).Nodup) :
    ((l.filter (fun p => p.2.metadataJson.isSome)).map Prod.fst).contains t =
      (match getEntry l t with
       | some d => d.metadataJson.isSome
       | none => false) := by
  induction l with
  | nil => simp [getEntry]
  | cons p rest ih =>
    obtain ⟨k, v⟩ := p
    simp only [List.map_cons, List.nodup_cons] at hnd
    obtain ⟨hk, hnd2⟩ := hnd
    by_cases h : k = t
    · subst h
      cases hv : v.metadataJson.isSome with
      | false =>
        have hc : ((rest.filter (fun p => p.2.metadataJson.isSome)).map Prod.fst).contains k
            = false := by
          cases hcc : ((rest.filter (fun p => p.2.metadataJson.isSome)).map Prod.fst).contains k
          with
          | false => rfl
          | true =>
            have hmem := List.mem_of_elem_eq_true hcc
            obtain ⟨pr, hpr, rfl⟩ := List.mem_map.mp hmem
            exact absurd (List.mem_map.mpr ⟨pr, List.mem_of_mem_filter hpr, rfl⟩) hk
        have h1 : List.filter (fun p => p.2.metadataJson.isSome) ((k, v) :: rest) =
            List.filter (fun p => p.2.metadataJson.isSome) rest := by
          simp [List.filter_cons, hv]
        rw [h1, hc]
        simp [getEntry, hv]
      | true =>
        simp [getEntry, List.filter_cons, hv]
    · cases hv : v.metadataJson.isSome with
      | false =>
        simp only [getEntry, if_neg h, List.filter_cons, hv]
        simpa using ih hnd2
      | true =>
        simp only [getEntry, if_neg h, List.filter_cons, hv, if_pos, List.map_cons,
          List.contains_cons]
        have hbeq : (t == k) = false := beq_eq_false_iff_ne.mpr (Ne.symm h)
        rw [hbeq]
        simpa using ih hnd2

/-- Witness for C8: on the file-less two-column table `t8`, a query that
projects to `a` alone (and filters and sorts) still reports both declared
columns. -/
theorem C8_zero_file_query_full_schema_witness :
    query c8Db1 c8Query =
      .ok ⟨[("a", PolarsType.int64), ("b", PolarsType.string)], []⟩ := by
  have h := C8_zero_file_query_full_schema c8Db1 c8Query
    ⟨[("a", "Int64"), ("b", "String")], [], 0, 0⟩ (by decide)
  rw [h]
  decide

/-- C9 (amended): a successful insert writes only partition-homogeneous new
files — the batch is grouped by partition-key tuple with one file per
distinct tuple — so homogeneity of every physical file in the table's
declared partition keys is preserved by any sequence of inserts.  Delete,
however, rewrites the table as a single unpartitioned file (and optimize
aborts), so the invariant does not survive deletes — see the counterexample. -/
theorem C9_insert_preserves_partition_homogeneity
    (db db2 : DB) (t : String) (df : DataFrame)
    (hh : tableFilesHomogB db t = true)
    (hins : insert db t df = (.ok (), db2)) :
    tableFilesHomogB db2 t = true := by
  cases hte : table_exists db t with
  | false =>
    rw [insert] at hins
    rw [hte] at hins
    simp at hins
  | true =>
    obtain ⟨d, hdir⟩ : ∃ d, db.getDir t = some d := by
      rw [table_exists] at hte
      cases hdir : db.getDir t with
      | none => rw [hdir] at hte; simp at hte
      | some d => exact ⟨d, rfl⟩
    obtain ⟨m, hmj⟩ : ∃ m, d.metadataJson = some m := by
      rw [table_exists, hdir] at hte
      change d.metadataJson.isSome = true at hte
      cases hmj : d.metadataJson with
      | none => rw [hmj] at hte; simp at hte
      | some m => exact ⟨m, rfl⟩
    have hmeta : get_table_metadata db t = some m := by
      simp [get_table_metadata, hdir, hmj]
    cases hpk : m.partitionKeys with
    | nil =>
      have h2 := insert_ok_unpart db db2 t df d m hdir hmj hpk hins
      simp [tableFilesHomogB, get_table_metadata, h2, hpk, fileHomogB, keyTuple]
    | cons k ks =>
      have hpkne : m.partitionKeys ≠ [] := by rw [hpk]; simp
      have h2 := insert_ok_part db db2 t df d m hdir hmj hpkne hins
      have hhold : d.files.all (fileHomogB m.partitionKeys) = true := by
        rw [tableFilesHomogB] at hh
        simpa [hdir, hmeta] using hh
      rw [tableFilesHomogB]
      simp only [h2, get_table_metadata, Option.getD_some, Option.some_bind]
      rw [List.all_append, Bool.and_eq_true]
      refine ⟨?_, ?_⟩
      · simpa using hhold
      · rw [List.all_eq_true]
        intro f hf
        obtain ⟨g, hg, rfl⟩ := List.mem_map.mp hf
        have hgh := groupRows_homog m.partitionKeys
          (dataWithPartitions df m.partitionKeys).rows g hg
        simp only [fileHomogB, List.all_eq_true]
        intro r1 h1 r2 hr2
        rw [decide_eq_true_eq, hgh r1 h1, hgh r2 hr2]

/-- Witness for C9: inserting the two-partition batch into the fresh
partitioned table `t9` (trivially homogeneous) yields a table whose files are
all partition-homogeneous. -/
theorem C9_insert_preserves_partition_homogeneity_witness :
    tableFilesHomogB partDb2 "t9" = true := by
  have h := C9_insert_preserves_partition_homogeneity partDb1 partDb2 "t9" partDf
    (by decide) (by decide)
  exact h

/-- C10: a table exists, for the existence check every operation performs,
exactly when `<root>/<table>/metadata.json` exists; `list()` returns exactly
the directories carrying that sidecar, removing a table's directory tree
unregisters it, and on a table whose directory lacks the sidecar — whatever
data files it holds — query, insert, delete, drop and optimize all fail
`TableNotFound`. -/
theorem C10_metadata_sidecar_is_existence (db : DB) (t : String) (df : DataFrame)
    (cond : Row → Bool) (hnd : (db.tables.map Prod.fst).Nodup) :
    table_exists db t = ((db.getDir t).map (fun d => d.metadataJson.isSome)).getD false ∧
    (list_tables db).contains t = table_exists db t ∧
    table_exists (db.eraseDir t) t = false ∧
    (table_exists db t = false →
      query db (unfilteredQuery t) = .error (.tableNotFound t) ∧
      insert db t df = (.error (.tableNotFound t), db) ∧
      execute_delete db t cond = (.error (.tableNotFound t), db) ∧
      execute_drop db t = (.error (.tableNotFound t), db) ∧
      optimize db t = (.error (.tableNotFound t), db)) := by
  refine ⟨?_, ?_, ?_, ?_⟩
  · cases hdir : db.getDir t with
    | none => simp [table_exists, hdir]
    | some d => simp [table_exists, hdir]
  · have h2 := contains_list_tables db.tables t hnd
    simpa [list_tables, table_exists, DB.getDir] using h2
  · simp [table_exists, DB.eraseDir, DB.getDir, getEntry_eraseEntry_self]
  · intro h
    refine ⟨?_, ?_, ?_, ?_, ?_⟩
    · simp [query, unfilteredQuery, h]
    · simp [insert, h]
    · simp [execute_delete, h]
    · simp [execute_drop, h]
    · simp [optimize, h]

/-- Witness for C10: in a database holding a registered table `good` and a
bare directory `bare` that has a data file but no `metadata.json`, the bare
directory is invisible: it does not exist, is not listed, and query/optimize
on it fail `TableNotFound`, while `good` is listed. -/
theorem C10_metadata_sidecar_is_existence_witness :
    table_exists c10Db "bare" = false ∧
    (list_tables c10Db).contains "bare" = false ∧
    (list_tables c10Db).contains "good" = true ∧
    query c10Db (unfilteredQuery "bare") = .error (.tableNotFound "bare") ∧
    optimize c10Db "bare" = (.error (.tableNotFound "bare"), c10Db) := by
  have h := C10_metadata_sidecar_is_existence c10Db "bare" ⟨[], []⟩ (fun _ => true)
    (by decide)
  have hb : table_exists c10Db "bare" = false := by decide
  have h5 := h.2.2.2 hb
  refine ⟨hb, ?_, by decide, h5.1, h5.2.2.2.2⟩
  rw [h.2.1, hb]

end BearLake
